import Mathlib

/-!
Verification development for the fallback front-matter extractor
(`parse_jocs_fallback_pdfplumber.py`).  The Python module is shallowly
embedded: strings are `String` (lists of characters), floats are `ℚ`,
Python dicts keyed by strings are association lists, and every regular
expression used by the code is implemented as an executable matcher on
`List Char` that mirrors the regex's alternatives and scanning order.
Only the ASCII fragment of Python's Unicode string semantics is modelled
(plus the `À`–`ž` letter range that the tokenizer regex names explicitly),
which covers every character class the module's regexes mention.
-/

namespace Jocs

/-! ### Character-level primitives (Python `str` / `re` model) -/

/-- Python `\s` on the inputs in scope: space, tab, newline, carriage
return, vertical tab, form feed. -/
def pyIsSpace (c : Char) : Bool :=
  c = ' ' || c = '\t' || c = '\n' || c = '\r' || c = '\x0b' || c = '\x0c'

def isLowerAscii (c : Char) : Bool := 'a' ≤ c && c ≤ 'z'

def isUpperAscii (c : Char) : Bool := 'A' ≤ c && c ≤ 'Z'

def isAsciiDigit (c : Char) : Bool := '0' ≤ c && c ≤ '9'

/-- `str.lower()` restricted to ASCII letters. -/
def asciiLower (c : Char) : Char :=
  if isUpperAscii c then Char.ofNat (c.toNat + 32) else c

/-- Python `\w`: ASCII letters, digits, underscore, and the Latin-1/Latin
Extended-A letters (`À`–`ž` minus `×` and `÷`). -/
def isWordChar (c : Char) : Bool :=
  isLowerAscii c || isUpperAscii c || isAsciiDigit c || c = '_' ||
    (0xC0 ≤ c.toNat && c.toNat ≤ 0x17E && c.toNat ≠ 0xD7 && c.toNat ≠ 0xF7)

def lowerChars (cs : List Char) : List Char := cs.map asciiLower

/-- `str.strip()`. -/
def trimChars (cs : List Char) : List Char :=
  ((cs.dropWhile pyIsSpace).reverse.dropWhile pyIsSpace).reverse

/-- `re.sub(r"\s+", "", s)`. -/
def collapseChars (cs : List Char) : List Char := cs.filter (fun c => !pyIsSpace c)

/-- Worker for `re.sub(r"\s+", " ", s)`; the flag records whether the
previous character was part of a whitespace run already emitted as `' '`. -/
def normGo : Bool → List Char → List Char
  | _, [] => []
  | prevSp, c :: rest =>
    if pyIsSpace c then
      if prevSp then normGo true rest else ' ' :: normGo true rest
    else c :: normGo false rest

def normSpaceChars (cs : List Char) : List Char := normGo false cs

def pyStrip (s : String) : String := String.mk (trimChars s.data)

def normSpace (s : String) : String := String.mk (normSpaceChars s.data)

/-- `str.strip(chars)` for an explicit character set (e.g. `strip(" ,")`). -/
def stripCharsOf (bad : List Char) (s : String) : String :=
  String.mk (((s.data.dropWhile (fun c => bad.contains c)).reverse.dropWhile
      (fun c => bad.contains c)).reverse)

/-- `str.split()` (split on whitespace runs, no empty pieces). -/
def splitWsGo : List Char → List Char → List (List Char)
  | acc, [] => if acc.isEmpty then [] else [acc.reverse]
  | acc, c :: rest =>
    if pyIsSpace c then
      if acc.isEmpty then splitWsGo [] rest else acc.reverse :: splitWsGo [] rest
    else splitWsGo (c :: acc) rest

def pySplitWs (s : String) : List (List Char) := splitWsGo [] s.data

def isPrefixCs : List Char → List Char → Bool
  | [], _ => true
  | _ :: _, [] => false
  | a :: as, b :: bs => a = b && isPrefixCs as bs

/-- Python `pat in s` (substring containment). -/
def isSubstrCs (pat : List Char) : List Char → Bool
  | [] => isPrefixCs pat []
  | c :: t => isPrefixCs pat (c :: t) || isSubstrCs pat t

def isSubstrOf (pat s : String) : Bool := isSubstrCs pat.data s.data

def startsWithStr (s pre : String) : Bool := isPrefixCs pre.data s.data

/-! ### Regex building blocks -/

/-- Match a literal case-insensitively, returning the remainder. -/
def litCI : List Char → List Char → Option (List Char)
  | [], cs => some cs
  | _ :: _, [] => none
  | p :: ps, c :: cs => if asciiLower c = asciiLower p then litCI ps cs else none

/-- `\s+` (greedy). -/
def sp1 : List Char → Option (List Char)
  | [] => none
  | c :: cs => if pyIsSpace c then some (cs.dropWhile pyIsSpace) else none

/-- `\b` after a pattern that ends in a word character. -/
def bAfterWord : List Char → Bool
  | [] => true
  | c :: _ => !isWordChar c

/-- `\b` after a pattern that ends in a non-word character. -/
def bAfterNonWord : List Char → Bool
  | [] => false
  | c :: _ => isWordChar c

/-- `\b` before a pattern that starts with a word character, given the
previous character (if any) at the current scan position. -/
def startBoundary : Option Char → Bool
  | none => true
  | some c => !isWordChar c

/-- Letters interleaved with `\s*` (between letters only), e.g.
`A\s*B\s*S\s*T\s*R\s*A\s*C\s*T`. -/
def spacedCI : List Char → List Char → Option (List Char)
  | [], cs => some cs
  | [p], cs => litCI [p] cs
  | p :: q :: ps, cs =>
    (litCI [p] cs).bind (fun r => spacedCI (q :: ps) (r.dropWhile pyIsSpace))

/-- `re.search` for a position-wise matcher with no boundary context. -/
def searchAt (p : List Char → Bool) : List Char → Bool
  | [] => p []
  | c :: t => p (c :: t) || searchAt p t

/-- `re.search` for a matcher that needs a leading `\b`; tracks the
previous character. -/
def searchWB (p : List Char → Bool) : Option Char → List Char → Bool
  | prev, [] => startBoundary prev && p []
  | prev, c :: t => (startBoundary prev && p (c :: t)) || searchWB p (some c) t

/-- Leftmost match position for a matcher that needs a leading `\b`. -/
def searchIdxWB (p : List Char → Bool) : Option Char → Nat → List Char → Option Nat
  | prev, i, [] => if startBoundary prev && p [] then some i else none
  | prev, i, c :: t =>
    if startBoundary prev && p (c :: t) then some i else searchIdxWB p (some c) (i + 1) t

/-- Leftmost match position for a matcher with no boundary requirement. -/
def searchIdxPlain (p : List Char → Bool) : Nat → List Char → Option Nat
  | i, [] => if p [] then some i else none
  | i, c :: t => if p (c :: t) then some i else searchIdxPlain p (i + 1) t

/-! ### The module's regex constants -/

/-- `RE_ARTINFO`: `ARTICLE\s+INFO` or its letter-spaced variant, `re.I`
(the third, lowercase alternative coincides with the second under
IGNORECASE). -/
def artinfoAt (cs : List Char) : Bool :=
  (((litCI "article".data cs).bind sp1).bind (litCI "info".data)).isSome ||
  (((spacedCI "article".data cs).bind sp1).bind (spacedCI "info".data)).isSome

def searchArtinfo (s : String) : Bool := searchAt artinfoAt s.data

/-- `RE_ABS_HDR`: `ABSTRACT` or its letter-spaced variant, `re.I`. -/
def absHdrAt (cs : List Char) : Bool :=
  (litCI "abstract".data cs).isSome || (spacedCI "abstract".data cs).isSome

def searchAbsHdr (s : String) : Bool := searchAt absHdrAt s.data

/-- `RE_STOP_ANY`, `re.I` (no word boundaries in the source pattern). -/
def stopAnyAt (cs : List Char) : Bool :=
  (((litCI "article".data cs).bind sp1).bind (litCI "info".data)).isSome ||
  (litCI "abstract".data cs).isSome ||
  (litCI "keywords".data cs).isSome ||
  (((litCI "key".data cs).map (fun r => r.dropWhile pyIsSpace)).bind
      (litCI "words".data)).isSome ||
  (((litCI "article".data cs).bind sp1).bind (litCI "history".data)).isSome ||
  (litCI "received".data cs).isSome ||
  (litCI "accepted".data cs).isSome ||
  (((litCI "available".data cs).bind sp1).bind (litCI "online".data)).isSome

def searchStopAny (s : String) : Bool := searchAt stopAnyAt s.data

/-- `RE_KEYWORDS_HDR`: `\b(Key\s*words|Keywords)\b`, `re.I` — matcher at one
position (leading boundary handled by the caller). -/
def kwHdrAt (cs : List Char) : Bool :=
  ((((litCI "key".data cs).map (fun r => r.dropWhile pyIsSpace)).bind
      (litCI "words".data)).elim false bAfterWord) ||
  ((litCI "keywords".data cs).elim false bAfterWord)

def searchKeywordsHdr (s : String) : Bool := searchWB kwHdrAt none s.data

/-- `RE_INTRO` body: `(Introduction|1\.\s*Introduction)\b`, `re.I`. -/
def introAt (cs : List Char) : Bool :=
  ((litCI "introduction".data cs).elim false bAfterWord) ||
  ((((litCI "1.".data cs).map (fun r => r.dropWhile pyIsSpace)).bind
      (litCI "introduction".data)).elim false bAfterWord)

def searchIntroGo : List Char → Bool
  | [] => false
  | c :: t => (pyIsSpace c && introAt t) || searchIntroGo t

/-- `RE_INTRO`: `(^|\s)(Introduction|1\.\s*Introduction)\b`, `re.I`. -/
def searchIntro (s : String) : Bool := introAt s.data || searchIntroGo s.data

/-- A word-boundary-terminated case-insensitive literal alternative. -/
def litWB (w : String) (cs : List Char) : Bool :=
  (litCI w.data cs).elim false bAfterWord

/-- The `Dept\. ?` alternative of `AFF_CUES` with its trailing `\b`
(greedy optional space, with backtracking). -/
def deptAt (cs : List Char) : Bool :=
  match litCI "dept.".data cs with
  | none => false
  | some r =>
    (match r with
     | ' ' :: r2 => bAfterNonWord r2
     | _ => false) || bAfterNonWord r

/-- The `Research\s+Group` alternative of `AFF_CUES`. -/
def researchGroupAt (cs : List Char) : Bool :=
  ((((litCI "research".data cs).bind sp1).bind (litCI "group".data)).elim
    false bAfterWord)

/-- `AFF_CUES` body at one position: the alternatives in source order,
each with the pattern's trailing `\b`. -/
def affCueAt (cs : List Char) : Bool :=
  litWB "department" cs || deptAt cs || litWB "school" cs || litWB "institute" cs ||
  litWB "faculty" cs || litWB "center" cs || litWB "centre" cs ||
  litWB "laboratory" cs || litWB "lab" cs || litWB "university" cs ||
  litWB "universit" cs || litWB "college" cs || litWB "hospital" cs ||
  litWB "academy" cs || researchGroupAt cs || litWB "iit" cs || litWB "mit" cs ||
  litWB "eth" cs || litWB "cnrs" cs || litWB "inria" cs

/-- `AFF_CUES.search(s)` returning `m.start()`. -/
def searchAffCuesIdx (s : String) : Option Nat := searchIdxWB affCueAt none 0 s.data

def searchAffCues (s : String) : Bool := (searchAffCuesIdx s).isSome

/-- `AFF_CUES_MERGED` body (no word boundaries in the source pattern). -/
def affCueMergedAt (cs : List Char) : Bool :=
  ["department", "school", "institute", "faculty", "center", "centre",
   "laboratory", "university", "college", "hospital", "academy"].any
    (fun w => (litCI w.data cs).isSome)

/-- `AFF_CUES_MERGED.search(s)` returning `m.start()`. -/
def searchAffCuesMergedIdx (s : String) : Option Nat :=
  searchIdxPlain affCueMergedAt 0 s.data

/-- Country alternatives of `is_likely_affiliation`'s third test. -/
def countryAt (cs : List Char) : Bool :=
  ["usa", "uk", "india", "china", "germany", "france", "japan", "canada",
   "australia"].any (fun w => litWB w cs)

/-- `re.search(r"\b(USA|UK|India|China|Germany|France|Japan|Canada|Australia)\b", s, re.I)`. -/
def searchCountry (s : String) : Bool := searchWB countryAt none s.data

/-- `re.search(r"\d{5,6}", s)`: some run of at least five ASCII digits. -/
def hasDigitRun5 : List Char → Bool
  | [] => false
  | c :: t =>
    decide (5 ≤ ((c :: t).takeWhile isAsciiDigit).length) || hasDigitRun5 t

/-! ### `fix_merged_text` -/

/-- `re.sub(r'([a-z])([A-Z])', r'\1 \2', s)` (left-to-right,
non-overlapping; scanning resumes after each match). -/
def sub1Chars : List Char → List Char
  | [] => []
  | [c] => [c]
  | a :: b :: rest =>
    if isLowerAscii a && isUpperAscii b then a :: ' ' :: b :: sub1Chars rest
    else a :: sub1Chars (b :: rest)

/-- Glue words of the second `re.sub` in `fix_merged_text`, in the
pattern's alternation order. -/
def glueWords : List String :=
  ["of", "and", "the", "for", "in", "at", "to", "with", "from", "by", "de",
   "la", "le", "des", "du"]

/-- One attempt of the alternation `(of|and|…)([A-Z])` at the current
position: returns the matched word's original characters, the letter,
and the rest after it.  The substitution carries `flags=re.I`, which in
Python also makes the `[A-Z]` class case-insensitive, so any ASCII
letter is accepted there. -/
def tryGlue : List String → List Char → Option (List Char × Char × List Char)
  | [], _ => none
  | w :: ws, cs =>
    match litCI w.data cs with
    | some r =>
      match r with
      | c :: r2 =>
        if isUpperAscii c || isLowerAscii c then some (cs.take w.data.length, c, r2)
        else tryGlue ws cs
      | [] => tryGlue ws cs
    | none => tryGlue ws cs

/-- `re.sub(r'\b(of|and|the|for|in|at|to|with|from|by|de|la|le|des|du)([A-Z])',
r'\1 \2', s, flags=re.I)`; the scanner carries the previous character for
the `\b` test.  Fuel keeps the recursion structural (the list's length
always suffices). -/
def sub2Fuel : Nat → Option Char → List Char → List Char
  | 0, _, _ => []
  | _ + 1, _, [] => []
  | fuel + 1, prev, c :: t =>
    if startBoundary prev then
      match tryGlue glueWords (c :: t) with
      | some (wchars, cap, rest) =>
        wchars ++ ' ' :: cap :: sub2Fuel fuel (some cap) rest
      | none => c :: sub2Fuel fuel (some c) t
    else c :: sub2Fuel fuel (some c) t

/-- Alternative `an` of `\b(of)(the|a|an)\b` (with its trailing `\b`). -/
def ofAltAn (r : List Char) : Option (List Char × List Char) :=
  match litCI "an".data r with
  | some r3 => if bAfterWord r3 then some (r.take 2, r3) else none
  | none => none

/-- Alternatives `a|an`, tried in the pattern's order with backtracking. -/
def ofAltA (r : List Char) : Option (List Char × List Char) :=
  match litCI "a".data r with
  | some r4 => if bAfterWord r4 then some (r.take 1, r4) else ofAltAn r
  | none => ofAltAn r

/-- The full second group `(the|a|an)\b` of the third `fix_merged_text`
substitution. -/
def ofSecondAlt (r : List Char) : Option (List Char × List Char) :=
  match litCI "the".data r with
  | some r2 => if bAfterWord r2 then some (r.take 3, r2) else ofAltA r
  | none => ofAltA r

/-- One attempt of `\b(of)(the|a|an)\b` at the current position: returns
the matched "of" characters, the matched second word's characters, and
the rest. -/
def tryOfThe (cs : List Char) : Option (List Char × List Char × List Char) :=
  match litCI "of".data cs with
  | none => none
  | some r =>
    match ofSecondAlt r with
    | none => none
    | some (b, rest) => some (cs.take 2, b, rest)

/-- `re.sub(r'\b(of)(the|a|an)\b', r'\1 \2', s, flags=re.I)`.  The
fuel argument (always called with the list's length, which suffices
because every step consumes at least one character) keeps the recursion
structural. -/
def sub3Fuel : Nat → Option Char → List Char → List Char
  | 0, _, _ => []
  | _ + 1, _, [] => []
  | fuel + 1, prev, c :: t =>
    if startBoundary prev then
      match tryOfThe (c :: t) with
      | some (ofc, b, rest) =>
        ofc ++ ' ' :: (b ++ sub3Fuel fuel (some (b.getLastD 'x')) rest)
      | none => c :: sub3Fuel fuel (some c) t
    else c :: sub3Fuel fuel (some c) t

def sub1 (s : String) : String := String.mk (sub1Chars s.data)

def sub2 (s : String) : String := String.mk (sub2Fuel s.data.length none s.data)

def sub3 (s : String) : String := String.mk (sub3Fuel s.data.length none s.data)

/-- `fix_merged_text` (lines 59–74 of the source). -/
def fix_merged_text (text : String) : String :=
  if text = "" then ""
  else
    let t := pyStrip text
    let words := splitWsGo [] t.data
    if 3 ≤ words.length then t
    else if 15 < t.length ∧ words.length ≤ 2 then sub3 (sub2 (sub1 t))
    else if words.length = 1 ∧ 10 < t.length then sub1 t
    else t

/-! ### `is_likely_affiliation` and `is_header_banner` -/

def affKeywords : List String :=
  ["department", "school", "institute", "faculty", "center", "centre",
   "laboratory", "university", "college", "hospital", "academy", "iit",
   "mit", "eth", "cnrs", "inria"]

/-- `is_likely_affiliation` (lines 76–92): keyword substrings of the
whitespace-collapsed lowercase text, a run of five digits, or a country
name bounded by `\b`. -/
def is_likely_affiliation (text : String) : Bool :=
  if text = "" then false
  else
    let t := pyStrip text
    let tColl := String.mk (lowerChars (collapseChars t.data))
    affKeywords.any (fun kw => isSubstrOf kw tColl) ||
    hasDigitRun5 t.data ||
    searchCountry t

def bannerPatterns : List String :=
  ["sciencedirect", "contents lists available", "contentslistsavailable",
   "journal homepage", "journalhomepage", "www.elsevier.com",
   "elsevier.com/locate", "check for updates", "checkforupdates", "crossmark"]

/-- `re.match(r"^journal\s+of\s+computational\s+science\s*$", t_lower)`. -/
def matchJournalFull (cs : List Char) : Bool :=
  ((((((litCI "journal".data cs).bind sp1).bind (litCI "of".data)).bind
      sp1).bind (litCI "computational".data)).bind sp1).bind
      (litCI "science".data) |>.elim false (fun r => (r.dropWhile pyIsSpace).isEmpty)

/-- `journal\s+of\s+computational\s+science\s+\d+\s*\(\d{4}\)` at one
position. -/
def journalVolAt (cs : List Char) : Bool :=
  match ((((((litCI "journal".data cs).bind sp1).bind (litCI "of".data)).bind
      sp1).bind (litCI "computational".data)).bind sp1).bind
      (litCI "science".data) |>.bind sp1 with
  | none => false
  | some r =>
    let ds := r.takeWhile isAsciiDigit
    if ds.isEmpty then false
    else
      match (r.dropWhile isAsciiDigit).dropWhile pyIsSpace with
      | '(' :: a :: b :: c :: d :: ')' :: _ =>
        isAsciiDigit a && isAsciiDigit b && isAsciiDigit c && isAsciiDigit d
      | _ => false

/-- `re.match(r"^\d+\s*\(\d{4}\)\s*\d+[\s–\-]*\d*$", t)`. -/
def pagesPatternAt (cs : List Char) : Bool :=
  if (cs.takeWhile isAsciiDigit).isEmpty then false
  else
    match (cs.dropWhile isAsciiDigit).dropWhile pyIsSpace with
    | '(' :: a :: b :: c :: d :: ')' :: rest =>
      if isAsciiDigit a && isAsciiDigit b && isAsciiDigit c && isAsciiDigit d then
        let r2 := rest.dropWhile pyIsSpace
        if (r2.takeWhile isAsciiDigit).isEmpty then false
        else
          (((r2.dropWhile isAsciiDigit).dropWhile
              (fun ch => pyIsSpace ch || ch = '–' || ch = '-')).dropWhile
              isAsciiDigit).isEmpty
      else false
    | _ => false

/-- `is_header_banner` (lines 94–121). -/
def is_header_banner (text : String) : Bool :=
  if text = "" then false
  else
    let t := pyStrip text
    let tl := String.mk (lowerChars t.data)
    let tc := String.mk (collapseChars tl.data)
    if t.length < 3 then false
    else
      isSubstrOf "journalofcomputationalscience" tc ||
      startsWithStr tl "journal of computational science" ||
      matchJournalFull tl.data ||
      searchAt journalVolAt tl.data ||
      pagesPatternAt t.data ||
      bannerPatterns.any (fun p => isSubstrOf p tc || isSubstrOf p tl) ||
      (tc = "sciencedirect" || tc = "elsevier")

/-! ### Data model: Word, Bucket, Line -/

/-- A positioned word as produced by `page.extract_words` (text, horizontal
extent `x0`/`x1`, vertical position `top`, font `size`). -/
structure Word where
  text : String
  x0 : ℚ
  x1 : ℚ
  top : ℚ
  size : ℚ
deriving DecidableEq, Repr

/-- A clustering bucket of `cluster_lines`: representative `y` (the first
word's `top`) and the accumulated words in arrival order. -/
structure Bucket where
  y : ℚ
  ws : List Word
deriving DecidableEq, Repr

/-- A reconstructed logical line. -/
structure Line where
  y : ℚ
  text : String
  max_size : ℚ
deriving DecidableEq, Repr

/-! ### `cluster_lines` -/

/-- One step of the bucket-assignment loop: append the word to the first
bucket whose representative `y` is within `y_tol`, else open a new bucket
at the end. -/
def addWord (y_tol : ℚ) : List Bucket → Word → List Bucket
  | [], w => [⟨w.top, [w]⟩]
  | b :: bs, w =>
    if |b.y - w.top| ≤ y_tol then ⟨b.y, b.ws ++ [w]⟩ :: bs
    else b :: addWord y_tol bs w

def assignBuckets (y_tol : ℚ) (words : List Word) : List Bucket :=
  words.foldl (addWord y_tol) []

/-- Stable insertion: place `x` before the first element `y` with
`le x y`. -/
def insertLe {α : Type} (le : α → α → Bool) (x : α) : List α → List α
  | [] => [x]
  | y :: ys => if le x y then x :: y :: ys else y :: insertLe le x ys

/-- Python's `sorted` (a stable sort), realized as stable insertion
sort: ties keep their original relative order. -/
def insertionSort {α : Type} (le : α → α → Bool) : List α → List α
  | [] => []
  | x :: xs => insertLe le x (insertionSort le xs)

def sortBucketsByY (bs : List Bucket) : List Bucket :=
  insertionSort (fun a b => decide (a.y ≤ b.y)) bs

def sortWordsByX0 (ws : List Word) : List Word :=
  insertionSort (fun a b => decide (a.x0 ≤ b.x0)) ws

def sortLinesByY (ls : List Line) : List Line :=
  insertionSort (fun a b => decide (a.y ≤ b.y)) ls

/-- The `parts` list of `cluster_lines`: each word's text, plus an extra
`" "` part after it when the gap to the next word exceeds `x_tol`. -/
def gapPartsChars (x_tol : ℚ) : List Word → List (List Char)
  | [] => []
  | [w] => [w.text.data]
  | w :: w2 :: rest =>
    if x_tol < w2.x0 - w.x1 then
      w.text.data :: [' '] :: gapPartsChars x_tol (w2 :: rest)
    else w.text.data :: gapPartsChars x_tol (w2 :: rest)

/-- `" ".join` at character level. -/
def joinSpChars : List (List Char) → List Char
  | [] => []
  | [p] => p
  | p :: q :: ps => p ++ ' ' :: joinSpChars (q :: ps)

/-- The text built for one bucket: `" ".join(parts).strip()` followed by
`re.sub(r'\s+', ' ', …)`. -/
def line_text (x_tol : ℚ) (ws : List Word) : String :=
  String.mk (normSpaceChars (trimChars (joinSpChars (gapPartsChars x_tol ws))))

/-- `max(w.get("size", 0) for w in ws)` (0 for the impossible empty case). -/
def maxSizeOf : List Word → ℚ
  | [] => 0
  | w :: ws => ws.foldl (fun m x => max m x.size) w.size

/-- `cluster_lines` (lines 132–170): greedy bucket assignment, buckets
sorted by `y`, words in a bucket sorted by `x0`, text joined with the
gap rule, empty-text lines dropped. -/
def cluster_lines (words : List Word) (y_tol x_tol : ℚ) : List Line :=
  (sortBucketsByY (assignBuckets y_tol words)).filterMap (fun b =>
    let ws := sortWordsByX0 b.ws
    let text := line_text x_tol ws
    if text = "" then none else some ⟨b.y, text, maxSizeOf ws⟩)

/-! ### Zone locator (pure part of `parse_front_matter_page1`) -/

/-- `find_y(lines, regex)` with the regex generalized to a predicate. -/
def find_y (lines : List Line) (p : String → Bool) : Option ℚ :=
  match lines with
  | [] => none
  | li :: rest => if p li.text then some li.y else find_y rest p

/-- Banner `y`s collected by `find_header_end_y`'s loop, which breaks at
the first line with `y > 0.35 * page_height`. -/
def collectBannerYs (h35 : ℚ) : List Line → List ℚ
  | [] => []
  | li :: rest =>
    if h35 < li.y then []
    else if is_header_banner li.text then li.y :: collectBannerYs h35 rest
    else collectBannerYs h35 rest

def maxQ : List ℚ → ℚ
  | [] => 0
  | x :: xs => xs.foldl max x

/-- `find_header_end_y` (lines 123–130). -/
def find_header_end_y (lines : List Line) (page_height : ℚ) : ℚ :=
  let bys := collectBannerYs (page_height * (35 / 100)) lines
  if bys.isEmpty then page_height * (10 / 100) else maxQ bys + 5

/-- Python's `a or b` on optional floats: `None` and `0.0` are falsy. -/
def pyOrQ (a b : Option ℚ) : Option ℚ :=
  match a with
  | none => b
  | some y => if y = 0 then b else some y

/-- `absinfo_y` of `parse_front_matter_page1` (lines 330–332):
`find_y(RE_ARTINFO) or find_y(RE_ABS_HDR)`, defaulting to 62% of page
height when `None`. -/
def absinfo_y_of (page_height : ℚ) (lines : List Line) : ℚ :=
  (pyOrQ (find_y lines searchArtinfo) (find_y lines searchAbsHdr)).getD
    (page_height * (62 / 100))

/-- The `top` list (lines 334–339): lines with
`content_start_y <= y < min(absinfo_y, 0.45 * H)` that are not banners. -/
def top_of (page_height : ℚ) (lines : List Line) : List Line :=
  lines.filter (fun li =>
    decide (find_header_end_y lines page_height ≤ li.y) &&
    decide (li.y < min (absinfo_y_of page_height lines) (page_height * (45 / 100))) &&
    !is_header_banner li.text)

def max_font_of (top : List Line) : ℚ :=
  match top with
  | [] => 0
  | li :: rest => rest.foldl (fun m x => max m x.max_size) li.max_size

/-- `title_candidates` (lines 344–348): lines of `top` within 1.5 of the
maximum font size, re-checked against banners, sorted by `y`. -/
def title_candidates_page1 (page_height : ℚ) (lines : List Line) : List Line :=
  let top := top_of page_height lines
  sortLinesByY (top.filter (fun li =>
    decide (max_font_of top - 3 / 2 ≤ li.max_size) && !is_header_banner li.text))

/-- The title-merging loop (lines 350–358): skip banners, keep collecting
while consecutive kept lines are within 20 vertical units, stop at the
first larger gap. -/
def title_merge_loop : Option ℚ → List Line → List Line
  | _, [] => []
  | lastY, li :: rest =>
    if is_header_banner li.text then title_merge_loop lastY rest
    else
      match lastY with
      | none => li :: title_merge_loop (some li.y) rest
      | some ly =>
        if |li.y - ly| ≤ 20 then li :: title_merge_loop (some li.y) rest
        else []

def title_lines_page1 (page_height : ℚ) (lines : List Line) : List Line :=
  title_merge_loop none (title_candidates_page1 page_height lines)

/-- `" ".join(li["text"] for li in ls)`. -/
def joinTexts (ls : List Line) : String :=
  String.mk (joinSpChars (ls.map (fun li => li.text.data)))

/-- The extracted title (lines 360–361). -/
def title_page1 (page_height : ℚ) (lines : List Line) : String :=
  fix_merged_text (pyStrip (joinTexts (title_lines_page1 page_height lines)))

/-- `title_bottom_y` (line 362): last title line's `y`, else the header
cutoff (`content_start_y`). -/
def title_bottom_y_of (page_height : ℚ) (lines : List Line) : ℚ :=
  match (title_lines_page1 page_height lines).getLast? with
  | some li => li.y
  | none => find_header_end_y lines page_height

/-- The author/affiliation `zone` (lines 364–366). -/
def zone_of (page_height : ℚ) (lines : List Line) : List Line :=
  lines.filter (fun li =>
    decide (title_bottom_y_of page_height lines + 5 < li.y) &&
    decide (li.y < absinfo_y_of page_height lines) &&
    !is_header_banner li.text)

/-- `re.match(r"^\s*[a-z]\s+[A-Z]", t)`. -/
def matchLcSpUc (s : String) : Bool :=
  match s.data.dropWhile pyIsSpace with
  | c :: d :: rest =>
    isLowerAscii c && pyIsSpace d &&
      (match rest.dropWhile pyIsSpace with
       | e :: _ => isUpperAscii e
       | [] => false)
  | _ => false

/-- `re.match(r"^\s*[a-z][A-Z]", t)`. -/
def matchLcUc (s : String) : Bool :=
  match s.data.dropWhile pyIsSpace with
  | c :: d :: _ => isLowerAscii c && isUpperAscii d
  | _ => false

/-- Condition (a) of the zone scan: an article-info/abstract/stop anchor. -/
def zone_stop_cond (t : String) : Bool :=
  searchArtinfo t || searchAbsHdr t || searchStopAny t

/-- Condition (b) of the zone scan: a letter-marker pattern. -/
def zone_marker_cond (t : String) : Bool := matchLcSpUc t || matchLcUc t

/-- The scan of lines 368–383: first line hitting one of the three
conditions, together with the `has_markers` flag. -/
def find_aff_split : Nat → List Line → Option (Nat × Bool)
  | _, [] => none
  | i, li :: rest =>
    let t := pyStrip li.text
    if zone_stop_cond t then some (i, false)
    else if zone_marker_cond t then some (i, true)
    else if searchAffCues t then some (i, false)
    else find_aff_split (i + 1) rest

/-- The author/affiliation split (lines 384–389): at the found index, or
the "first two lines are authors" default. -/
def split_zone (zone : List Line) : List Line × List Line × Bool :=
  match find_aff_split 0 zone with
  | none => (zone.take 2, zone.drop 2, false)
  | some (i, hm) => (zone.take i, zone.drop i, hm)

/-! ### Author parsing (marker path) -/

/-- An author record: name, sorted markers, corresponding flag. -/
structure Author where
  name : String
  markers : List String
  corresponding : Bool
deriving DecidableEq, Repr

def supDigits : List Char := ['⁰', '¹', '²', '³', '⁴', '⁵', '⁶', '⁷', '⁸', '⁹']

/-- `SUP_TO_DIGIT` translation table. -/
def sup_to_digit (c : Char) : Char :=
  if c = '⁰' then '0' else if c = '¹' then '1' else if c = '²' then '2'
  else if c = '³' then '3' else if c = '⁴' then '4' else if c = '⁵' then '5'
  else if c = '⁶' then '6' else if c = '⁷' then '7' else if c = '⁸' then '8'
  else if c = '⁹' then '9' else c

/-- `DIGIT_TO_SUP` translation table. -/
def digit_to_sup (c : Char) : Char :=
  if c = '0' then '⁰' else if c = '1' then '¹' else if c = '2' then '²'
  else if c = '3' then '³' else if c = '4' then '⁴' else if c = '5' then '⁵'
  else if c = '6' then '⁶' else if c = '7' then '⁷' else if c = '8' then '⁸'
  else if c = '9' then '⁹' else c

def supTranslate (s : String) : String := String.mk (s.data.map sup_to_digit)

def digitsToSup (s : String) : String := String.mk (s.data.map digit_to_sup)

/-- The `[A-Za-zÀ-ž]` class of `extract_tokens_from_lines` (a raw
code-point range, so it includes `×` and `÷`). -/
def isTokLetter (c : Char) : Bool :=
  isLowerAscii c || isUpperAscii c || (0xC0 ≤ c.toNat && c.toNat ≤ 0x17E)

def isSupChar (c : Char) : Bool := supDigits.contains c

/-- `re.findall(r"[A-Za-zÀ-ž]+|[0-9]+|[⁰¹²³⁴⁵⁶⁷⁸⁹]|[,.*∗⁎]", text)`.
Fuel keeps the recursion structural (the list's length always
suffices because every step consumes at least one character). -/
def tokenizeFuel : Nat → List Char → List String
  | 0, _ => []
  | _ + 1, [] => []
  | fuel + 1, c :: rest =>
    if isTokLetter c then
      String.mk (c :: rest.takeWhile isTokLetter) ::
        tokenizeFuel fuel (rest.dropWhile isTokLetter)
    else if isAsciiDigit c then
      String.mk (c :: rest.takeWhile isAsciiDigit) ::
        tokenizeFuel fuel (rest.dropWhile isAsciiDigit)
    else if isSupChar c then String.mk [c] :: tokenizeFuel fuel rest
    else if c = ',' || c = '.' || c = '*' || c = '∗' || c = '⁎' then
      String.mk [c] :: tokenizeFuel fuel rest
    else tokenizeFuel fuel rest

def tokenizeChars (cs : List Char) : List String := tokenizeFuel cs.length cs

/-- `extract_tokens_from_lines` (lines 180–184). -/
def extract_tokens_from_lines (lines : List Line) : List String :=
  lines.flatMap (fun li => tokenizeChars li.text.data)

/-- The in-progress author accumulator. -/
structure AuthorAcc where
  name_parts : List String
  markers : List String
  corresponding : Bool
deriving DecidableEq, Repr

/-- `set.add` on the marker set (kept as an insertion-ordered list; it is
sorted at finalization anyway). -/
def addMarker (ms : List String) (m : String) : List String :=
  if ms.contains m then ms else ms ++ [m]

def sortStrings (ms : List String) : List String :=
  insertionSort (fun a b => decide (a ≤ b)) ms

/-- `finalize_author` (lines 186–189). -/
def finalize_author (cur : AuthorAcc) : Author :=
  ⟨fix_merged_text (pyStrip (String.intercalate " " cur.name_parts)),
   sortStrings cur.markers, cur.corresponding⟩

def isAstTok (tok : String) : Bool := tok = "*" || tok = "∗" || tok = "⁎"

/-- `re.fullmatch(r"[a-z]", tok)`. -/
def isSingleLower (tok : String) : Bool :=
  match tok.data with
  | [c] => isLowerAscii c
  | _ => false

/-- `re.fullmatch(r"[0-9]+", tok)`. -/
def isDigitsTok (tok : String) : Bool :=
  !tok.data.isEmpty && tok.data.all isAsciiDigit

/-- `tok in "⁰¹²³⁴⁵⁶⁷⁸⁹"` — Python substring containment. -/
def isSupSubstrTok (tok : String) : Bool := isSubstrCs tok.data supDigits

/-- One iteration of the token loop of `parse_authors_with_markers`
(lines 196–221). -/
def markers_step (st : List Author × AuthorAcc) (tok : String) :
    List Author × AuthorAcc :=
  let authors := st.1
  let cur := st.2
  if tok = "," then
    if cur.name_parts.isEmpty then (authors, cur)
    else
      let a := finalize_author cur
      if a.name != "" && !is_likely_affiliation a.name then
        (authors ++ [a], ⟨[], [], false⟩)
      else (authors, ⟨[], [], false⟩)
  else if isAstTok tok then (authors, { cur with corresponding := true })
  else if isSingleLower tok then (authors, { cur with markers := addMarker cur.markers tok })
  else if isDigitsTok tok then (authors, { cur with markers := addMarker cur.markers tok })
  else if isSupSubstrTok tok then
    (authors, { cur with markers := addMarker cur.markers (supTranslate tok) })
  else (authors, { cur with name_parts := cur.name_parts ++ [tok] })

/-- The token-level body of `parse_authors_with_markers` (lines 193–228). -/
def parse_authors_with_markers_tokens (tokens : List String) : List Author :=
  let st := tokens.foldl markers_step ([], ⟨[], [], false⟩)
  if st.2.name_parts.isEmpty then st.1
  else
    let a := finalize_author st.2
    if a.name != "" && !is_likely_affiliation a.name then st.1 ++ [a] else st.1

/-- `parse_authors_with_markers` (lines 191–228). -/
def parse_authors_with_markers (author_lines : List Line) : List Author :=
  parse_authors_with_markers_tokens (extract_tokens_from_lines author_lines)

/-! ### Author parsing (unmarked path) -/

/-- `re.split(r"\s*,\s*", s)`: does a split-match start at this position? -/
def commaMatchAt (cs : List Char) : Bool :=
  match cs.dropWhile pyIsSpace with
  | ',' :: _ => true
  | _ => false

/-- Consume one `\s*,\s*` match. -/
def commaMatchRest (cs : List Char) : List Char :=
  match cs.dropWhile pyIsSpace with
  | ',' :: r => r.dropWhile pyIsSpace
  | _ => cs

/-- `re.split(r"\s*,\s*", s)` scanning loop (fuel-structural). -/
def splitCommaFuel : Nat → List Char → List Char → List String
  | 0, acc, _ => [String.mk acc]
  | _ + 1, acc, [] => [String.mk acc]
  | fuel + 1, acc, c :: rest =>
    if commaMatchAt (c :: rest) then
      String.mk acc :: splitCommaFuel fuel [] (commaMatchRest (c :: rest))
    else splitCommaFuel fuel (acc ++ [c]) rest

def pySplitCommaWs (s : String) : List String := splitCommaFuel s.data.length [] s.data

def hasAst (s : String) : Bool :=
  s.data.any (fun c => c = '*' || c = '∗' || c = '⁎')

/-- `re.sub(r"[*∗⁎]", "", s)`. -/
def stripAst (s : String) : String :=
  String.mk (s.data.filter (fun c => !(c = '*' || c = '∗' || c = '⁎')))

/-- `(extracted_aff + ", " + p).strip(", ") if extracted_aff else p`. -/
def joinAff (aff p : String) : String :=
  if aff != "" then stripCharsOf [',', ' '] (aff ++ ", " ++ p) else p

/-- One iteration of the fragment loop of `parse_authors_without_markers`
(lines 253–273). -/
def without_markers_step (st : List Author × String) (p0 : String) :
    List Author × String :=
  let authors := st.1
  let aff := st.2
  let p := pyStrip p0
  if p = "" then st
  else if isDigitsTok p then st
  else if is_likely_affiliation p then (authors, joinAff aff p)
  else
    let corr := hasAst p
    let p1 := fix_merged_text (pyStrip (stripAst p))
    if is_likely_affiliation p1 then (authors, joinAff aff p1)
    else if p1 != "" then (authors ++ [⟨p1, [], corr⟩], aff)
    else st

/-- `parse_authors_without_markers` (lines 230–276). -/
def parse_authors_without_markers (author_text0 : String) : List Author × String :=
  let t0 := pyStrip author_text0
  if t0 = "" then ([], "")
  else
    let st1 : String × String :=
      match searchAffCuesIdx t0 with
      | some i =>
        (stripCharsOf [' ', ','] (String.mk (t0.data.take i)),
         pyStrip (String.mk (t0.data.drop i)))
      | none => (t0, "")
    let st2 : String × String :=
      if st1.2 = "" then
        match searchAffCuesMergedIdx st1.1 with
        | some i =>
          (stripCharsOf [' ', ','] (String.mk (st1.1.data.take i)),
           pyStrip (String.mk (st1.1.data.drop i)))
        | none => st1
      else st1
    let at2 := fix_merged_text st2.1
    let st := (pySplitCommaWs at2).foldl without_markers_step ([], st2.2)
    (st.1, fix_merged_text st.2)

/-! ### Affiliation parsing -/

/-- Insertion-ordered dict assignment `d[k] = v`. -/
def pdictSet : List (String × String) → String → String → List (String × String)
  | [], k, v => [(k, v)]
  | (k0, v0) :: rest, k, v =>
    if k0 = k then (k0, v) :: rest else (k0, v0) :: pdictSet rest k v

/-- Dict lookup with `""` default (the key is always present when used). -/
def pdictGetD : List (String × String) → String → String
  | [], _ => ""
  | (k0, v0) :: rest, k => if k0 = k then v0 else pdictGetD rest k

/-- `re.match(r"^\s*([a-z])\s+(.*)$", t)`: the key letter and group 2. -/
def aff_marker_line1 (t : String) : Option (String × String) :=
  match t.data.dropWhile pyIsSpace with
  | c :: d :: rest =>
    if isLowerAscii c && pyIsSpace d then
      some (String.mk [c], String.mk (rest.dropWhile pyIsSpace))
    else none
  | _ => none

/-- `re.match(r"^\s*([a-z])([A-Z]. *)$", t)`: a lowercase key, a capital,
one arbitrary (non-newline) character, then only spaces to the end —
group 2 is the two characters plus the trailing spaces. -/
def aff_marker_line2 (t : String) : Option (String × String) :=
  match t.data.dropWhile pyIsSpace with
  | c :: d :: e :: rest =>
    if isLowerAscii c && isUpperAscii d && e != '\n' &&
        rest.all (fun ch => ch = ' ') then
      some (String.mk [c], String.mk (d :: e :: rest))
    else none
  | _ => none

/-- The line loop of `parse_affiliations_with_markers` (lines 282–303). -/
def parse_affiliations_go :
    List (String × String) → Option String → List Line → List (String × String)
  | d, _, [] => d
  | d, lastKey, li :: rest =>
    let t := pyStrip li.text
    if t = "" then parse_affiliations_go d lastKey rest
    else if searchArtinfo t || searchAbsHdr t || searchStopAny t then d
    else
      match aff_marker_line1 t with
      | some (k, v) =>
        parse_affiliations_go (pdictSet d k (fix_merged_text (pyStrip v))) (some k) rest
      | none =>
        match aff_marker_line2 t with
        | some (k, v) =>
          parse_affiliations_go (pdictSet d k (fix_merged_text (pyStrip v))) (some k) rest
        | none =>
          match lastKey with
          | some k =>
            parse_affiliations_go
              (pdictSet d k (pyStrip (pdictGetD d k ++ " " ++ fix_merged_text t)))
              (some k) rest
          | none => parse_affiliations_go d none rest

/-- `parse_affiliations_with_markers` (lines 280–304). -/
def parse_affiliations_with_markers (aff_lines : List Line) : List (String × String) :=
  parse_affiliations_go [] none aff_lines

/-- `parse_affiliations_without_markers` (lines 306–314). -/
def parse_affiliations_without_markers (aff_text0 : String) : List (String × String) :=
  let t := pyStrip aff_text0
  if t = "" then []
  else if searchArtinfo t || searchAbsHdr t then []
  else
    let t2 := fix_merged_text (pyStrip (normSpace t))
    if t2 != "" then [("all", t2)] else []

/-! ### Keyword / abstract extraction -/

/-- `\s*:?\s*` after the matched header word; the rest is group 1 (`(.*)$`). -/
def afterColon (cs : List Char) : List Char :=
  let c1 := cs.dropWhile pyIsSpace
  let c2 := match c1 with
    | ':' :: t => t
    | _ => c1
  c2.dropWhile pyIsSpace

/-- `\bKeywords?\b\s*:?\s*(.*)$` at one position (greedy optional `s`
with backtracking on the trailing `\b`). -/
def kwGroupAt (cs : List Char) : Option (List Char) :=
  match litCI "keyword".data cs with
  | none => none
  | some r =>
    match r with
    | c :: r2 =>
      if asciiLower c = 's' && bAfterWord r2 then some (afterColon r2)
      else if bAfterWord r then some (afterColon r) else none
    | [] => if bAfterWord r then some (afterColon r) else none

/-- `\bAbstract\b\s*:?\s*(.*)$` at one position. -/
def absGroupAt (cs : List Char) : Option (List Char) :=
  match litCI "abstract".data cs with
  | none => none
  | some r => if bAfterWord r then some (afterColon r) else none

/-- `re.search` for a group-returning matcher with a leading `\b`. -/
def searchGroupWB (pat : List Char → Option (List Char)) :
    Option Char → List Char → Option (List Char)
  | prev, [] => if startBoundary prev then pat [] else none
  | prev, c :: t =>
    match (if startBoundary prev then pat (c :: t) else none) with
    | some g => some g
    | none => searchGroupWB pat (some c) t

/-- The keyword continuation loop (lines 438–442). -/
def kwCollect : List Line → List String
  | [] => []
  | li :: rest =>
    let t := pyStrip li.text
    if searchAbsHdr t || searchIntro t then []
    else t :: kwCollect rest

/-- The abstract continuation loop (lines 460–464). -/
def absCollect : List Line → List String
  | [] => []
  | li :: rest =>
    let t := pyStrip li.text
    if searchIntro t then [] else t :: absCollect rest

/-- `extract_kw_abs_from_lines` (lines 407–469). -/
def extract_kw_abs_from_lines (lines : List Line) : String × String :=
  let clean := lines.filter (fun li => !is_header_banner li.text)
  let kwIdx := clean.findIdx? (fun li => searchKeywordsHdr li.text)
  let absIdx := clean.findIdx? (fun li => searchAbsHdr li.text)
  let introIdx := clean.findIdx? (fun li => searchIntro li.text)
  let keywords :=
    match kwIdx with
    | none => ""
    | some k =>
      let endKw :=
        match absIdx with
        | some a =>
          if k < a then a
          else
            match introIdx with
            | some j => if k < j then j else clean.length
            | none => clean.length
        | none =>
          match introIdx with
          | some j => if k < j then j else clean.length
          | none => clean.length
      match (clean.drop k).take (endKw - k) with
      | [] => ""
      | first :: rest =>
        let parts0 :=
          match searchGroupWB kwGroupAt none first.text.data with
          | some g => if g.isEmpty then [] else [pyStrip (String.mk g)]
          | none => []
        let parts := parts0 ++ kwCollect rest
        if parts.isEmpty then "" else pyStrip (normSpace (String.intercalate " " parts))
  let abstract :=
    match absIdx with
    | none => ""
    | some a =>
      let endAbs :=
        match introIdx with
        | some j => if a < j then j else clean.length
        | none => clean.length
      match (clean.drop a).take (endAbs - a) with
      | [] => ""
      | first :: rest =>
        let parts0 :=
          match searchGroupWB absGroupAt none first.text.data with
          | some g => if g.isEmpty then [] else [pyStrip (String.mk g)]
          | none => []
        let parts := parts0 ++ absCollect rest
        if parts.isEmpty then "" else pyStrip (normSpace (String.intercalate " " parts))
  (keywords, abstract)

/-! ### Flatteners -/

def isDigitsStr (m : String) : Bool := !m.data.isEmpty && m.data.all isAsciiDigit

/-- The loop body of `flatten_authors` for one author (lines 477–490):
skip empty names, append the digit markers as superscripts, append the
corresponding-author asterisk. -/
def flatten_one (a : Author) : Option String :=
  let name := pyStrip a.name
  if name = "" then none
  else
    let numeric := String.join (a.markers.filter isDigitsStr)
    let n1 := if numeric != "" then name ++ digitsToSup numeric else name
    let n2 := if a.corresponding then n1 ++ " ∗" else n1
    some n2

/-- `flatten_authors` (lines 473–492). -/
def flatten_authors (authors : List Author) : String :=
  pyStrip (String.intercalate ", " (authors.filterMap flatten_one))

/-! ### Full per-page pipeline (pure part of `parse_front_matter_page1`) -/

structure FrontMatter where
  title : String
  authors : List Author
  affiliations : List (String × String)
deriving DecidableEq, Repr

/-- Lines 329–402 of the source, starting from the clustered lines. -/
def parse_front_matter_from_lines (page_height : ℚ) (lines : List Line) :
    FrontMatter :=
  if (top_of page_height lines).isEmpty then ⟨"", [], []⟩
  else
    let title := title_page1 page_height lines
    let zone := zone_of page_height lines
    let split := split_zone zone
    let author_lines := split.1
    let aff_lines := split.2.1
    let has_markers := split.2.2
    let author_text := pyStrip (joinTexts author_lines)
    if has_markers then
      ⟨title, parse_authors_with_markers author_lines,
       parse_affiliations_with_markers aff_lines⟩
    else
      let pa := parse_authors_without_markers author_text
      let aff_text := pyStrip (joinTexts aff_lines)
      let combined :=
        if pa.2 != "" || aff_text != "" then pyStrip (pa.2 ++ " " ++ aff_text) else ""
      ⟨title, pa.1, parse_affiliations_without_markers combined⟩

/-- `parse_front_matter_page1` on a page's word list (the pdfplumber I/O
is the caller's concern; `y_tol = x_tol = 3.0` as at the call sites). -/
def parse_front_matter_page1 (page_height : ℚ) (words : List Word) : FrontMatter :=
  if words.isEmpty then ⟨"", [], []⟩
  else parse_front_matter_from_lines page_height (cluster_lines words 3 3)

/-! ## Claim-specific definitions -/

/-- A line whose tokenization is exactly claim C1's token sequence. -/
def c1_line : Line := ⟨0, "Jane Doe, 1 John Smith, 2 ∗", 10⟩

def c1_tokens : List String :=
  ["Jane", "Doe", ",", "1", "John", "Smith", ",", "2", "∗"]

/-- Title-candidate selection exactly as claim C2 words it: lines
STRICTLY between the header cutoff and the metadata bound, where the
bound is the `y` of the first line matching an article-info or abstract
anchor, or 62% of page height when no such anchor exists; candidates are
the lines within 1.5 of the maximum font size among those lines, in `y`
order. -/
def title_candidates_claimed (page_height : ℚ) (lines : List Line) : List Line :=
  let cutoff := find_header_end_y lines page_height
  let bound :=
    (find_y lines (fun t => searchArtinfo t || searchAbsHdr t)).getD
      (page_height * (62 / 100))
  let region := lines.filter (fun li =>
    decide (cutoff < li.y) && decide (li.y < bound) && !is_header_banner li.text)
  sortLinesByY (region.filter (fun li =>
    decide (max_font_of region - 3 / 2 ≤ li.max_size)))

/-- Title-candidate selection as the AMENDED claim C2 words it: the
candidate region's lower bound is inclusive at the header cutoff, and
its upper bound is `min(anchor_y, 45% of page height)` where `anchor_y`
is the `y` of the first article-info match if one exists (falling back
to the first abstract-header match when absent or at `y = 0`), else 62%
of page height. -/
def title_candidates_amended (page_height : ℚ) (lines : List Line) : List Line :=
  let cutoff := find_header_end_y lines page_height
  let bound := min (absinfo_y_of page_height lines) (page_height * (45 / 100))
  let region := lines.filter (fun li =>
    decide (cutoff ≤ li.y) && decide (li.y < bound) && !is_header_banner li.text)
  sortLinesByY (region.filter (fun li =>
    decide (max_font_of region - 3 / 2 ≤ li.max_size)))

def c2_lines : List Line := [⟨20, "Small Line", 10⟩, ⟨50, "Big Title", 20⟩]

def c3w1 : Word := ⟨"A", 0, 1, 3, 10⟩

def c3w2 : Word := ⟨"B", 10, 11, 0, 10⟩

def c3w3 : Word := ⟨"C", 20, 21, 6, 10⟩

/-- The clusterer's bucket invariant: every word is within `y_tol` of
its bucket's representative `y`. -/
def bucketInv (y_tol : ℚ) (bs : List Bucket) : Prop :=
  ∀ b ∈ bs, ∀ w ∈ b.ws, |b.y - w.top| ≤ y_tol

def c4wA : Word := ⟨"Jane", 0, 10, 0, 12⟩

def c4wB : Word := ⟨"Doe", 10, 20, 0, 12⟩

/-- "The first character, if any, is not whitespace." -/
def headOk (cs : List Char) : Prop :=
  match cs with
  | [] => True
  | c :: _ => pyIsSpace c = false

def c9_zone : List Line :=
  [⟨10, "Jane Doe", 10⟩, ⟨20, "John Smith", 10⟩, ⟨30, "Bob Jones", 10⟩]

/-! ## Claims -/

/-! ### C1 — marker-based author resolver on the round-trip token list -/

/-- C1 (counterexample): on the token sequence
`["Jane", "Doe", ",", "1", "John", "Smith", ",", "2", "∗"]` the resolver
does NOT return the two Authors `{Jane Doe, markers ["1"]}` and
`{John Smith, markers ["2"], corresponding}` that the claim stipulates:
a marker token that arrives after a comma is credited to the NEXT
accumulator, and "John Smith" is then discarded because
`is_likely_affiliation` finds the substring `"mit"` in `"johnsmith"`. -/
theorem claim1_counterexample :
    extract_tokens_from_lines [c1_line] = c1_tokens ∧
    parse_authors_with_markers [c1_line] ≠
      [⟨"Jane Doe", ["1"], false⟩, ⟨"John Smith", ["2"], true⟩] := by
  constructor
  · rfl
  · decide

/-- C1 (amended): on that token sequence `parse_authors_with_markers`
returns exactly one Author, `{name := "Jane Doe", markers := [],
corresponding := false}`: the markers "1" and "2" and the asterisk are
attributed to the accumulator that follows the comma, "John Smith" is
dropped by the affiliation heuristic (substring "mit"), and the final
accumulator has no name parts so it is never emitted. -/
theorem claim1_amended :
    parse_authors_with_markers [c1_line] = [⟨"Jane Doe", [], false⟩] ∧
    is_likely_affiliation "John Smith" = true := by
  constructor
  · rfl
  · rfl

/-! ### C5 — marker-keyed affiliation lines fused with a capital -/

/-- C5 (code evaluation at the failing input): the zone locator's marker
test `^\s*[a-z][A-Z]` accepts `"aDepartment of Computer Science"` and
routes it to the marker-based affiliation parser, but that parser's
second pattern `^\s*([a-z])([A-Z]. *)$` — note the stray space before
`*` — only matches three-character lines, so the line matches neither
branch and the parser returns an empty map instead of the entry
`("a", "Department of Computer Science")` the claim (and the spec)
require. -/
theorem claim5_code_behavior :
    matchLcUc "aDepartment of Computer Science" = true ∧
    parse_affiliations_with_markers [⟨0, "aDepartment of Computer Science", 10⟩] = [] ∧
    parse_affiliations_with_markers [⟨0, "aDe", 10⟩] = [("a", "De")] := by
  refine ⟨rfl, rfl, rfl⟩

/-! ### C6 — merged-text repair on "JaneDoe" -/

/-- C6 (counterexample): `fix_merged_text "JaneDoe"` returns `"JaneDoe"`
unchanged — the single-word repair branch requires more than 10
characters and `"JaneDoe"` has 7 — so the output does not contain the
space the claim demands. -/
theorem claim6_counterexample :
    fix_merged_text "JaneDoe" = "JaneDoe" ∧ "JaneDoe" ≠ "Jane Doe" := by
  exact ⟨rfl, by decide⟩

/-- C6 (amended): a single fused word longer than 10 characters is
repaired with a space before the embedded capital, e.g.
`"JonathanDoe"` (11 characters) becomes `"Jonathan Doe"`; `"JaneDoe"`
is below the threshold and is returned unchanged. -/
theorem claim6_amended :
    fix_merged_text "JonathanDoe" = "Jonathan Doe" ∧
    fix_merged_text "JaneDoe" = "JaneDoe" := by
  exact ⟨rfl, rfl⟩

/-! ### C7 — unmarked author path on the two-author example -/

/-- C7 (code evaluation at the failing input): on
`"Jane Doe, John Smith, Department of Computer Science, MIT, USA"` the
code returns only the author "Jane Doe" and reclassifies "John Smith"
into the affiliation text, because `is_likely_affiliation` tests its
keywords by substring containment on the whitespace-collapsed lowercase
fragment and `"johnsmith"` contains `"mit"`.  The claim (and the spec's
testable property) require the first two comma-segments to be authors. -/
theorem claim7_code_behavior :
    parse_authors_without_markers
        "Jane Doe, John Smith, Department of Computer Science, MIT, USA" =
      ([⟨"Jane Doe", [], false⟩],
       "Department of Computer Science, MIT, USA, John Smith") ∧
    is_likely_affiliation "John Smith" = true ∧
    is_likely_affiliation "Jane Doe" = false := by
  refine ⟨rfl, rfl, rfl⟩

/-! ### C8 — keyword/abstract extraction on the three-line example -/

/-- C8: on the lines `["Keywords: machine learning, NLP", "Abstract",
"We propose..."]` the extractor returns keywords
`"machine learning, NLP"` and abstract `"We propose..."`, and the
abstract string does not contain the header word "Abstract". -/
theorem claim8_kw_abs :
    extract_kw_abs_from_lines
        [⟨0, "Keywords: machine learning, NLP", 10⟩,
         ⟨10, "Abstract", 10⟩,
         ⟨20, "We propose...", 10⟩] =
      ("machine learning, NLP", "We propose...") ∧
    isSubstrOf "Abstract" "We propose..." = false := by
  refine ⟨rfl, rfl⟩

/-! ### C2 — title-candidate selection in the zone locator -/

/-- C2 (counterexample): with page height 100 and the two non-banner,
non-anchor lines `(y 20, size 10)` and `(y 50, size 20)`, the claim's
reading (bound = anchor `y` or 62% of page height, strict bounds) selects
the large-font line at `y = 50`, but the code clamps the candidate
region to `min(absinfo_y, 0.45 · H) = 45` and uses an inclusive lower
bound, so it selects the small line at `y = 20` instead. -/
theorem claim2_counterexample :
    title_candidates_claimed 100 c2_lines = [⟨50, "Big Title", 20⟩] ∧
    title_candidates_page1 100 c2_lines = [⟨20, "Small Line", 10⟩] ∧
    title_candidates_claimed 100 c2_lines ≠ title_candidates_page1 100 c2_lines := by
  refine ⟨by with_unfolding_all rfl, by with_unfolding_all rfl,
    by with_unfolding_all decide⟩

/-- C2 (amended): the set of title-candidate lines is exactly the
non-banner lines `li` with
`header_cutoff ≤ li.y < min(anchor_y, 0.45 · page_height)` (anchor_y as
computed by `absinfo_y_of`, defaulting to 62% of page height) whose font
size is within 1.5 of the maximum over that region, in `y` order; the
title lines are obtained from them by the 20-unit merge loop. -/
theorem claim2_amended (page_height : ℚ) (lines : List Line) :
    title_candidates_page1 page_height lines =
      title_candidates_amended page_height lines ∧
    title_lines_page1 page_height lines =
      title_merge_loop none (title_candidates_amended page_height lines) := by
  have hban : ∀ li ∈ top_of page_height lines, is_header_banner li.text = false := by
    intro li hli
    unfold top_of at hli
    have h3 := (List.mem_filter.mp hli).2
    simp only [Bool.and_eq_true, Bool.not_eq_true'] at h3
    tauto
  have h : title_candidates_page1 page_height lines =
      title_candidates_amended page_height lines := by
    show sortLinesByY ((top_of page_height lines).filter (fun li =>
        decide (max_font_of (top_of page_height lines) - 3 / 2 ≤ li.max_size) &&
        !is_header_banner li.text)) =
      sortLinesByY ((top_of page_height lines).filter (fun li =>
        decide (max_font_of (top_of page_height lines) - 3 / 2 ≤ li.max_size)))
    congr 1
    apply List.filter_congr
    intro li hli
    rw [hban li hli]
    simp
  refine ⟨h, ?_⟩
  show title_merge_loop none (title_candidates_page1 page_height lines) = _
  rw [h]

/-! ### C3 — vertical separation in the clusterer -/

lemma addWord_inv (y_tol : ℚ) (h0 : 0 ≤ y_tol) (w : Word) :
    ∀ bs : List Bucket, bucketInv y_tol bs → bucketInv y_tol (addWord y_tol bs w) := by
  intro bs
  induction bs with
  | nil =>
    intro _ b hb w2 hw2
    simp only [addWord, List.mem_singleton] at hb
    subst hb
    simp only [List.mem_singleton] at hw2
    subst hw2
    simpa using h0
  | cons b0 rest ih =>
    intro hinv b hb w2 hw2
    have hinv0 : bucketInv y_tol rest :=
      fun b2 hb2 => hinv b2 (List.mem_cons_of_mem b0 hb2)
    unfold addWord at hb
    by_cases hc : |b0.y - w.top| ≤ y_tol
    · rw [if_pos hc] at hb
      rcases List.mem_cons.mp hb with hb1 | hb2
      · subst hb1
        rcases List.mem_append.mp hw2 with hw3 | hw4
        · exact hinv b0 (List.mem_cons_self b0 rest) w2 hw3
        · simp only [List.mem_singleton] at hw4
          subst hw4
          exact hc
      · exact hinv b (List.mem_cons_of_mem b0 hb2) w2 hw2
    · rw [if_neg hc] at hb
      rcases List.mem_cons.mp hb with hb1 | hb2
      · subst hb1
        exact hinv _ (List.mem_cons_self _ rest) w2 hw2
      · exact ih hinv0 b hb2 w2 hw2

lemma foldl_addWord_inv (y_tol : ℚ) (h0 : 0 ≤ y_tol) :
    ∀ (words : List Word) (bs : List Bucket), bucketInv y_tol bs →
      bucketInv y_tol (words.foldl (addWord y_tol) bs) := by
  intro words
  induction words with
  | nil => intro bs h; simpa using h
  | cons w ws ih =>
    intro bs h
    exact ih _ (addWord_inv y_tol h0 w bs h)

/-- C3 (counterexample): with `y_tol = 3`, the words at `top = 0` and
`top = 6` differ vertically by `6 > y_tol`, yet the greedy clusterer
puts all three words into the single bucket whose representative is the
first word's `top = 3` and emits ONE line `"A B C"` containing both —
so "more than `y_tol` apart implies different Lines" is false. -/
theorem claim3_counterexample :
    cluster_lines [c3w1, c3w2, c3w3] 3 3 = [⟨3, "A B C", 10⟩] ∧
    assignBuckets 3 [c3w1, c3w2, c3w3] = [⟨3, [c3w1, c3w2, c3w3]⟩] ∧
    3 < |c3w2.top - c3w3.top| := by
  refine ⟨by with_unfolding_all rfl, by with_unfolding_all rfl,
    by with_unfolding_all decide⟩

/-- C3 (amended): for a nonnegative tolerance, two words that the
clusterer places in the same bucket (hence contribute to the same Line)
are vertically within `2 · y_tol` of each other — equivalently, words
more than `2 · y_tol` apart always land in different Lines.  Each word
is within `y_tol` of its bucket's representative `y` (the first word's
`top`), so two words of one bucket differ by at most `2 · y_tol`. -/
theorem claim3_amended (y_tol : ℚ) (words : List Word) (b : Bucket) (w1 w2 : Word)
    (h0 : 0 ≤ y_tol) (hb : b ∈ assignBuckets y_tol words)
    (h1 : w1 ∈ b.ws) (h2 : w2 ∈ b.ws) :
    |w1.top - w2.top| ≤ 2 * y_tol := by
  have hinv : bucketInv y_tol (assignBuckets y_tol words) :=
    foldl_addWord_inv y_tol h0 words []
      (by intro b2 hb2; simp at hb2)
  have e1 := hinv b hb w1 h1
  have e2 := hinv b hb w2 h2
  have tri : |w1.top - w2.top| ≤ |w1.top - b.y| + |b.y - w2.top| :=
    abs_sub_le _ _ _
  rw [abs_sub_comm w1.top b.y] at tri
  linarith

/-- C3 (witness): the amended bound applied to the concrete bucket of
the counterexample. -/
theorem claim3_amended_witness :
    |c3w2.top - c3w3.top| ≤ 2 * 3 :=
  claim3_amended 3 [c3w1, c3w2, c3w3] ⟨3, [c3w1, c3w2, c3w3]⟩ c3w2 c3w3
    (by norm_num) (by with_unfolding_all decide) (by with_unfolding_all decide)
    (by with_unfolding_all decide)

/-! ### C9 — default author/affiliation split -/

lemma find_aff_split_none (zone : List Line)
    (h : ∀ li ∈ zone, zone_stop_cond (pyStrip li.text) = false ∧
      zone_marker_cond (pyStrip li.text) = false ∧
      searchAffCues (pyStrip li.text) = false) :
    ∀ i, find_aff_split i zone = none := by
  induction zone with
  | nil => intro i; rfl
  | cons li rest ih =>
    intro i
    obtain ⟨h1, h2, h3⟩ := h li (List.mem_cons_self li rest)
    have hr := ih (fun x hx => h x (List.mem_cons_of_mem li hx))
    simp [find_aff_split, h1, h2, h3, hr]

/-- C9: whenever no line of the zone satisfies any of the three split
conditions (stop anchor, marker pattern, affiliation cue), the split
defaults to "first two lines are authors, the rest are affiliations"
with `has_markers = false`; the function is total, so it never aborts. -/
theorem claim9_default_split (zone : List Line)
    (h : ∀ li ∈ zone, zone_stop_cond (pyStrip li.text) = false ∧
      zone_marker_cond (pyStrip li.text) = false ∧
      searchAffCues (pyStrip li.text) = false) :
    split_zone zone = (zone.take 2, zone.drop 2, false) := by
  unfold split_zone
  rw [find_aff_split_none zone h 0]

/-- C9 (witness): the default split on a concrete three-line zone with
no stop anchor, marker pattern or affiliation cue. -/
theorem claim9_witness :
    split_zone c9_zone = (c9_zone.take 2, c9_zone.drop 2, false) :=
  claim9_default_split c9_zone (by decide)

/-! ### C10 — flattening renders only digit markers -/

/-- C10: the flattened author display string depends only on the digit
markers — deleting every non-digit marker (such as the single lowercase
letter "a") from every author leaves the output unchanged — and digit
markers are rendered as superscript digits appended to the name, as in
the concrete instance where markers `["1", "a"]` render as `"Jane Doe¹"`. -/
theorem claim10_flatten (authors : List Author) :
    flatten_authors authors =
      flatten_authors (authors.map
        (fun a => { a with markers := a.markers.filter isDigitsStr })) ∧
    flatten_authors [⟨"Jane Doe", ["1", "a"], false⟩] = "Jane Doe¹" := by
  constructor
  · unfold flatten_authors
    rw [List.filterMap_map]
    have key : (flatten_one ∘ fun a : Author =>
        { a with markers := a.markers.filter isDigitsStr }) = flatten_one := by
      funext a
      show flatten_one { a with markers := a.markers.filter isDigitsStr } = flatten_one a
      unfold flatten_one
      simp [List.filter_filter]
    rw [key]
  · rfl

/-! ### C4 — spacing between consecutive words of a Line -/

lemma normGo_spacefree : ∀ (t : List Char), (∀ c ∈ t, pyIsSpace c = false) →
    ∀ b, normGo b t = t := by
  intro t
  induction t with
  | nil => intro _ b; rfl
  | cons c r ih =>
    intro h b
    have hc := h c (List.mem_cons_self c r)
    simp only [normGo, hc, Bool.false_eq_true, if_false, List.cons.injEq, true_and]
    exact ih (fun x hx => h x (List.mem_cons_of_mem c hx)) false

lemma normGo_append_spacefree : ∀ (t cs : List Char),
    (∀ c ∈ t, pyIsSpace c = false) →
    normGo false (t ++ cs) = t ++ normGo false cs := by
  intro t
  induction t with
  | nil => intro cs _; rfl
  | cons c r ih =>
    intro cs h
    have hc := h c (List.mem_cons_self c r)
    simp only [List.cons_append, normGo, hc, Bool.false_eq_true, if_false,
      List.cons.injEq, true_and]
    exact ih cs (fun x hx => h x (List.mem_cons_of_mem c hx))

lemma normGo_drop_spaces : ∀ (sep cs : List Char),
    (∀ c ∈ sep, pyIsSpace c = true) →
    normGo true (sep ++ cs) = normGo true cs := by
  intro sep
  induction sep with
  | nil => intro cs _; rfl
  | cons s r ih =>
    intro cs h
    have hs := h s (List.mem_cons_self s r)
    simp only [List.cons_append, normGo, hs, if_true]
    exact ih cs (fun x hx => h x (List.mem_cons_of_mem s hx))

lemma normGo_true_headOk (cs : List Char) (h : headOk cs) :
    normGo true cs = normGo false cs := by
  cases cs with
  | nil => rfl
  | cons c t =>
    have hc : pyIsSpace c = false := h
    simp [normGo, hc]

lemma normGo_spacerun (sep cs : List Char) (hne : sep ≠ [])
    (hsep : ∀ c ∈ sep, pyIsSpace c = true) (hcs : headOk cs) :
    normGo false (sep ++ cs) = ' ' :: normGo false cs := by
  cases sep with
  | nil => exact absurd rfl hne
  | cons s r =>
    have hs := hsep s (List.mem_cons_self s r)
    have h1 : normGo false ((s :: r) ++ cs) = ' ' :: normGo true (r ++ cs) := by
      simp [normGo, hs]
    rw [h1, normGo_drop_spaces r cs (fun x hx => hsep x (List.mem_cons_of_mem s hx)),
      normGo_true_headOk cs hcs]

lemma dropWhile_headOk (l : List Char) (h : headOk l) :
    l.dropWhile pyIsSpace = l := by
  cases l with
  | nil => rfl
  | cons c t =>
    have hc : pyIsSpace c = false := h
    simp [List.dropWhile, hc]

lemma trim_noop (l : List Char) (hh : headOk l) (hl : headOk l.reverse) :
    trimChars l = l := by
  unfold trimChars
  rw [dropWhile_headOk l hh, dropWhile_headOk l.reverse hl, List.reverse_reverse]

lemma gapParts_cons (x_tol : ℚ) (v : Word) (vs : List Word) :
    ∃ tail, gapPartsChars x_tol (v :: vs) = v.text.data :: tail := by
  cases vs with
  | nil => exact ⟨[], rfl⟩
  | cons v2 r =>
    by_cases hgap : x_tol < v2.x0 - v.x1
    · exact ⟨[' '] :: gapPartsChars x_tol (v2 :: r), by simp [gapPartsChars, hgap]⟩
    · exact ⟨gapPartsChars x_tol (v2 :: r), by simp [gapPartsChars, hgap]⟩

lemma joinSp_head (p : List Char) (ps : List (List Char)) :
    ∃ r, joinSpChars (p :: ps) = p ++ r := by
  cases ps with
  | nil => exact ⟨[], by simp [joinSpChars]⟩
  | cons q qs => exact ⟨' ' :: joinSpChars (q :: qs), rfl⟩

lemma join_gap_cons_big (x_tol : ℚ) (w w2 : Word) (rest : List Word)
    (hgap : x_tol < w2.x0 - w.x1) :
    joinSpChars (gapPartsChars x_tol (w :: w2 :: rest)) =
      w.text.data ++ ([' ', ' ', ' '] ++ joinSpChars (gapPartsChars x_tol (w2 :: rest))) := by
  obtain ⟨tail, htail⟩ := gapParts_cons x_tol w2 rest
  have h1 : gapPartsChars x_tol (w :: w2 :: rest) =
      w.text.data :: [' '] :: gapPartsChars x_tol (w2 :: rest) := by
    simp [gapPartsChars, hgap]
  rw [h1, htail]
  simp [joinSpChars]

lemma join_gap_cons_small (x_tol : ℚ) (w w2 : Word) (rest : List Word)
    (hgap : ¬x_tol < w2.x0 - w.x1) :
    joinSpChars (gapPartsChars x_tol (w :: w2 :: rest)) =
      w.text.data ++ ([' '] ++ joinSpChars (gapPartsChars x_tol (w2 :: rest))) := by
  obtain ⟨tail, htail⟩ := gapParts_cons x_tol w2 rest
  have h1 : gapPartsChars x_tol (w :: w2 :: rest) =
      w.text.data :: gapPartsChars x_tol (w2 :: rest) := by
    simp [gapPartsChars, hgap]
  rw [h1, htail]
  simp [joinSpChars]

lemma join_gapParts_headOk (x_tol : ℚ) (v : Word) (vs : List Word)
    (hne : v.text.data ≠ []) (hsp : ∀ c ∈ v.text.data, pyIsSpace c = false) :
    headOk (joinSpChars (gapPartsChars x_tol (v :: vs))) := by
  obtain ⟨tail, htail⟩ := gapParts_cons x_tol v vs
  obtain ⟨r, hr⟩ := joinSp_head v.text.data tail
  rw [htail, hr]
  cases hv : v.text.data with
  | nil => exact absurd hv hne
  | cons c t =>
    have hc := hsp c (by rw [hv]; exact List.mem_cons_self c t)
    exact hc

lemma join_gapParts_ne_nil (x_tol : ℚ) (v : Word) (vs : List Word)
    (hne : v.text.data ≠ []) :
    joinSpChars (gapPartsChars x_tol (v :: vs)) ≠ [] := by
  obtain ⟨tail, htail⟩ := gapParts_cons x_tol v vs
  obtain ⟨r, hr⟩ := joinSp_head v.text.data tail
  rw [htail, hr]
  intro hcontra
  exact hne (List.append_eq_nil.mp hcontra).1

lemma headOk_append_left (l r : List Char) (hne : l ≠ []) (h : headOk l) :
    headOk (l ++ r) := by
  cases l with
  | nil => exact absurd rfl hne
  | cons c t => exact h

lemma join_gapParts_last (x_tol : ℚ) : ∀ (ws : List Word),
    (∀ w ∈ ws, w.text.data ≠ [] ∧ ∀ c ∈ w.text.data, pyIsSpace c = false) →
    headOk (joinSpChars (gapPartsChars x_tol ws)).reverse := by
  intro ws
  induction ws with
  | nil => intro _; exact trivial
  | cons w vs ih =>
    intro h
    obtain ⟨hne, hsp⟩ := h w (List.mem_cons_self w vs)
    cases vs with
    | nil =>
      show headOk (joinSpChars [w.text.data]).reverse
      have hj : joinSpChars [w.text.data] = w.text.data := rfl
      rw [hj]
      cases hrev : w.text.data.reverse with
      | nil => exact absurd (List.reverse_eq_nil_iff.mp hrev) hne
      | cons a t2 =>
        have ha : a ∈ w.text.data :=
          List.mem_reverse.mp (by rw [hrev]; exact List.mem_cons_self a t2)
        exact hsp a ha
    | cons w2 rest =>
      have hrest : ∀ v ∈ w2 :: rest, v.text.data ≠ [] ∧
          ∀ c ∈ v.text.data, pyIsSpace c = false :=
        fun v hv => h v (List.mem_cons_of_mem w hv)
      have ihr := ih hrest
      have hJne : joinSpChars (gapPartsChars x_tol (w2 :: rest)) ≠ [] :=
        join_gapParts_ne_nil x_tol w2 rest (hrest w2 (List.mem_cons_self w2 rest)).1
      have hJrev : (joinSpChars (gapPartsChars x_tol (w2 :: rest))).reverse ≠ [] := by
        simpa using hJne
      by_cases hgap : x_tol < w2.x0 - w.x1
      · rw [join_gap_cons_big x_tol w w2 rest hgap, List.reverse_append,
          List.reverse_append, List.append_assoc]
        exact headOk_append_left _ _ hJrev ihr
      · rw [join_gap_cons_small x_tol w w2 rest hgap, List.reverse_append,
          List.reverse_append, List.append_assoc]
        exact headOk_append_left _ _ hJrev ihr

lemma normJoin (x_tol : ℚ) : ∀ (ws : List Word),
    (∀ w ∈ ws, w.text.data ≠ [] ∧ ∀ c ∈ w.text.data, pyIsSpace c = false) →
    normGo false (joinSpChars (gapPartsChars x_tol ws)) =
      joinSpChars (ws.map (fun w => w.text.data)) := by
  intro ws
  induction ws with
  | nil => intro _; rfl
  | cons w vs ih =>
    intro h
    obtain ⟨hne, hsp⟩ := h w (List.mem_cons_self w vs)
    have hrest : ∀ v ∈ vs, v.text.data ≠ [] ∧
        ∀ c ∈ v.text.data, pyIsSpace c = false :=
      fun v hv => h v (List.mem_cons_of_mem w hv)
    cases vs with
    | nil =>
      show normGo false (joinSpChars [w.text.data]) = joinSpChars [w.text.data]
      exact normGo_spacefree w.text.data hsp false
    | cons w2 rest =>
      have hJhead : headOk (joinSpChars (gapPartsChars x_tol (w2 :: rest))) :=
        join_gapParts_headOk x_tol w2 rest
          (hrest w2 (List.mem_cons_self w2 rest)).1
          (hrest w2 (List.mem_cons_self w2 rest)).2
      have hstep : normGo false (joinSpChars (gapPartsChars x_tol (w2 :: rest))) =
          joinSpChars ((w2 :: rest).map (fun w => w.text.data)) := ih hrest
      by_cases hgap : x_tol < w2.x0 - w.x1
      · rw [join_gap_cons_big x_tol w w2 rest hgap,
          normGo_append_spacefree _ _ hsp,
          normGo_spacerun [' ', ' ', ' '] _ (by simp) (by decide) hJhead,
          hstep]
        rfl
      · rw [join_gap_cons_small x_tol w w2 rest hgap,
          normGo_append_spacefree _ _ hsp,
          normGo_spacerun [' '] _ (by simp) (by decide) hJhead,
          hstep]
        rfl

/-- C4 (counterexample): the two words `"Jane"` (x1 = 10) and `"Doe"`
(x0 = 10) are horizontally adjacent with gap `0 ≤ x_tol = 3`, so the
claim demands they be concatenated with NO intervening space
(`"JaneDoe"`); the code nevertheless produces `"Jane Doe"`, because
`" ".join(parts)` inserts a space between every pair of parts and the
`\s+ → " "` cleanup collapses the runs. -/
theorem claim4_counterexample :
    cluster_lines [c4wA, c4wB] 3 3 = [⟨0, "Jane Doe", 12⟩] ∧
    c4wB.x0 - c4wA.x1 ≤ 3 ∧ ("Jane Doe" : String) ≠ "JaneDoe" := by
  refine ⟨by with_unfolding_all rfl, by with_unfolding_all decide, by decide⟩

/-- C4 (amended): the gap test has no observable effect — for every
tolerance `x_tol` and every word list whose texts are nonempty and
whitespace-free, the text built for a Line is exactly the word texts
joined by single spaces.  In particular a space separates two
horizontally consecutive words whether their gap exceeds `x_tol` or
not. -/
theorem claim4_amended (x_tol : ℚ) (ws : List Word)
    (h : ∀ w ∈ ws, w.text.data ≠ [] ∧ ∀ c ∈ w.text.data, pyIsSpace c = false) :
    line_text x_tol ws = String.mk (joinSpChars (ws.map (fun w => w.text.data))) := by
  unfold line_text normSpaceChars
  congr 1
  cases ws with
  | nil => rfl
  | cons w vs =>
    obtain ⟨hne, hsp⟩ := h w (List.mem_cons_self w vs)
    have htrim := trim_noop (joinSpChars (gapPartsChars x_tol (w :: vs)))
      (join_gapParts_headOk x_tol w vs hne hsp)
      (join_gapParts_last x_tol (w :: vs) h)
    rw [htrim]
    exact normJoin x_tol (w :: vs) h

/-- C4 (witness): the amended statement applied to the concrete adjacent
pair, with both hypotheses discharged by evaluation. -/
theorem claim4_amended_witness :
    line_text 3 [c4wA, c4wB] =
      String.mk (joinSpChars ([c4wA, c4wB].map (fun w => w.text.data))) :=
  claim4_amended 3 [c4wA, c4wB] (by decide)

end Jocs
